import Mathlib

/-!
Verification of the Banco de Chile statement extractor
(`beancount_chile/extractors/banco_chile_xls.py`).

The extractor is shallowly embedded: the pandas DataFrame produced by
`pd.read_excel(..., header=None)` is modelled as a rectangular `Grid` of
`Cell`s (absent / text / numeric), Python `Decimal` amounts as `Rat`,
`datetime` values as a `DateTime` record (date plus a sub-day component so
that two `datetime.now()` calls can differ), and fallible Python code as
`Except String`.  Each Python loop becomes a structurally recursive Lean
function of the same shape (an explicit start index plus fuel, exactly the
`for`-range of the source).
-/

namespace BancoChile

/-- Cell of the loaded spreadsheet grid: pandas gives NaN for an empty cell
(`absent`), a Python string for a text cell, or a numeric value.  The numeric
payload is the decimal value the cell denotes; `Decimal(str(v))` round-trips
it, so the amount parser returns it unchanged. -/
inductive Cell where
  | absent
  | text (s : String)
  | num (q : Rat)
deriving DecidableEq, Repr

/-- Python `pd.isna` on a cell value. -/
def isAbsent : Cell → Bool
  | .absent => true
  | _ => false

/-- Models Python `str()` of a float value.  Only three properties of the
rendering are relied on anywhere in the extractor: it is deterministic, it
never contains a `/` character (so a numeric cell can never look like a
`DD/MM/YYYY` date), and it never starts with a letter (so a numeric cell can
never match a metadata label).  The exact digit string is irrelevant to every
use site, so the denominator is rendered verbatim rather than as a decimal
expansion. -/
def floatRepr (q : Rat) : String :=
  toString q.num ++ "." ++ (if q.den = 1 then "0" else toString q.den)

/-- Python `str()` of a cell value; `str(nan)` is the text `nan` (this is what
`DataFrame.astype(str)` produces for an empty cell during label matching). -/
def cellStr : Cell → String
  | .absent => "nan"
  | .text s => s
  | .num q => floatRepr q

/-- Python `datetime`: a calendar date plus a sub-day component (`micro`
stands for the hour/minute/second/microsecond part).  `strptime` of a pure
date yields `micro = 0`; `datetime.now()` carries the clock reading. -/
structure DateTime where
  year : Nat
  month : Nat
  day : Nat
  micro : Nat
deriving DecidableEq, Repr

/-- The loaded spreadsheet: a list of rows as produced by
`pd.read_excel(filepath, header=None)`.  pandas rectangularises the sheet, so
the column count is the longest row and shorter rows are NaN-padded. -/
structure Grid where
  rows : List (List Cell)

/-- Number of rows (`len(df)`). -/
def Grid.nrows (g : Grid) : Nat := g.rows.length

/-- Number of columns (`df.shape[1]`): pandas pads every row to the width of
the widest row. -/
def Grid.ncols (g : Grid) : Nat := (g.rows.map List.length).foldr Nat.max 0

/-- Cell at (row, column); positions beyond a stored row are the NaN padding
pandas inserts. -/
def Grid.cell (g : Grid) (r c : Nat) : Cell :=
  (g.rows.getD r []).getD c Cell.absent

/-- Python `str.startswith`, on the character lists underlying the strings. -/
def strStartsWith (s pre : String) : Bool :=
  List.isPrefixOf pre.data s.data

/-- Python `str.strip()`: remove leading and trailing whitespace. -/
def trimChars (l : List Char) : List Char :=
  ((l.dropWhile Char.isWhitespace).reverse.dropWhile Char.isWhitespace).reverse

/-- Python `str.strip()` as a string-level operation. -/
def strTrim (s : String) : String := String.mk (trimChars s.data)

/-- Numeric value of an ASCII digit character. -/
def digitVal (c : Char) : Nat := c.toNat - 48

/-- Value of a non-empty all-digit character list, `none` otherwise.  This is
the accumulator loop. -/
def digitsToNatAux : List Char → Nat → Option Nat
  | [], acc => some acc
  | c :: t, acc => if c.isDigit then digitsToNatAux t (10 * acc + digitVal c) else none

/-- Value of a non-empty all-digit character list, `none` otherwise. -/
def digitsToNat : List Char → Option Nat
  | [] => none
  | l => digitsToNatAux l 0

/-- Models `Decimal(s)` for the strings the extractor can feed it after
separator stripping: an optional sign followed by decimal digits.  Exotic
`Decimal` syntax (exponents, `NaN`, `Infinity`, non-ASCII digits) never
occurs in statement cells and is outside the model; on every other string
`Decimal` raises, which the caller turns into zero. -/
def parseSignedDigits (s : String) : Option Int :=
  match s.data with
  | '-' :: rest => (digitsToNat rest).map (fun n => -(n : Int))
  | '+' :: rest => (digitsToNat rest).map (fun n => (n : Int))
  | l => (digitsToNat l).map (fun n => (n : Int))

/-- The separator stripping of `_parse_amount`:
`str(value).replace(",", "").replace(".", "").strip()`.  Replacing a
single-character pattern by the empty string deletes every occurrence, i.e.
filters the character out. -/
def cleanAmountStr (s : String) : String :=
  String.mk (trimChars (s.data.filter (fun c => !(c == ',') && !(c == '.'))))

/-- Embedding of `BancoChileXLSExtractor._parse_amount` (source lines
332-350).  NaN yields zero; a numeric cell is converted via its text
representation, which preserves its value; a text cell has commas and periods
stripped and the rest parsed with `Decimal`, any failure yielding zero.  The
source's early return on an empty stripped string is absorbed: the digit
parser already fails on the empty string, and both paths return zero.  The
function is total — the Python original never raises. -/
def parseAmount : Cell → Rat
  | .absent => 0
  | .num q => q
  | .text s =>
    match parseSignedDigits (cleanAmountStr s) with
    | some n => (n : Rat)
    | none => 0

/-- Leap-year rule used by `datetime`. -/
def isLeapYear (y : Nat) : Bool :=
  y % 4 == 0 && (y % 100 != 0 || y % 400 == 0)

/-- Days in a month, as validated by the `datetime` constructor. -/
def daysInMonth (y m : Nat) : Nat :=
  if m == 2 then (if isLeapYear y then 29 else 28)
  else if m == 4 || m == 6 || m == 9 || m == 11 then 30
  else 31

/-- Does the character list start with the shape `\d\d/\d\d/\d\d\d\d`?  This
is `re.match(r"\d{2}/\d{2}/\d{4}", s)` at position 0 (Python matches Unicode
digits; statement cells only ever contain ASCII digits, which is what
`Char.isDigit` checks). -/
def dateShapeAt : List Char → Bool
  | a :: b :: s1 :: c :: d :: s2 :: e :: f :: g2 :: h :: _ =>
    a.isDigit && b.isDigit && (s1 == '/') && c.isDigit && d.isDigit &&
      (s2 == '/') && e.isDigit && f.isDigit && g2.isDigit && h.isDigit
  | _ => false

/-- Prefix test used by the transaction-row loop (source line 297). -/
def startsWithDateShape (s : String) : Bool := dateShapeAt s.data

/-- Leftmost `DD/MM/YYYY`-shaped substring of a character list, as found by
`re.search(r"(\d{2}/\d{2}/\d{4})", s)`: try each start position left to
right. -/
def findDateSub : List Char → Option (List Char)
  | [] => none
  | l@(_ :: t) => if dateShapeAt l then some (l.take 10) else findDateSub t

/-- Embedding of `datetime.strptime(s, "%d/%m/%Y")`: succeeds exactly when
the whole string is a ten-character `DD/MM/YYYY` rendering of a valid
calendar date (strptime rejects trailing characters, day/month zero or out of
range, and invalid calendar combinations such as 31/02). -/
def parseFullDate (s : String) : Option DateTime :=
  match s.data with
  | [a, b, s1, c, d, s2, e, f, g2, h] =>
    if dateShapeAt [a, b, s1, c, d, s2, e, f, g2, h] then
      let day := 10 * digitVal a + digitVal b
      let month := 10 * digitVal c + digitVal d
      let year := 1000 * digitVal e + 100 * digitVal f + 10 * digitVal g2 + digitVal h
      if 1 ≤ year ∧ 1 ≤ month ∧ month ≤ 12 ∧ 1 ≤ day ∧ day ≤ daysInMonth year month
      then some ⟨year, month, day, 0⟩
      else none
    else none
  | _ => none

/-- First index `i` with `start ≤ i < start + fuel` satisfying `p`, scanning
upward.  This is the shape of every first-match scan in the extractor
(pandas boolean filtering followed by `.index[0]`, and the explicit `for`
loops of `_find_value_column` / `_find_header_column`). -/
def findFrom (p : Nat → Bool) : Nat → Nat → Option Nat
  | _, 0 => none
  | start, fuel + 1 => if p start then some start else findFrom p (start + 1) fuel

/-- First `some` value of `f` on `start ≤ i < start + fuel`, scanning
upward (the statement-date column scan). -/
def scanFrom {α : Type} (f : Nat → Option α) : Nat → Nat → Option α
  | _, 0 => none
  | start, fuel + 1 =>
    match f start with
    | some a => some a
    | none => scanFrom f (start + 1) fuel

/-- Does row `r`'s column-1 cell, stringified and stripped, start with
`label`?  This is `df[1].astype(str).str.strip().str.startswith(label)` on
one row. -/
def labelMatch (g : Grid) (r : Nat) (label : String) : Bool :=
  strStartsWith (strTrim (cellStr (g.cell r 1))) label

/-- Index of the first row whose column-1 text starts with `label`
(`df[df[1].astype(str).str.strip().str.startswith(label)].index[0]`). -/
def findLabelRow (g : Grid) (label : String) : Option Nat :=
  findFrom (fun r => labelMatch g r label) 0 g.nrows

/-- Embedding of `_find_value_column` (source lines 105-111): first non-NaN
column strictly after `labelCol` in row `r`, defaulting to `labelCol + 1`. -/
def findValueColumn (g : Grid) (r labelCol : Nat) : Nat :=
  (findFrom (fun c => !(isAbsent (g.cell r c))) (labelCol + 1)
      (g.ncols - (labelCol + 1))).getD (labelCol + 1)

/-- Embedding of `_find_header_column` (source lines 113-120): first column
of row `r` whose non-NaN cell, stripped, starts with `header`.  The source
returns `-1` on failure; the callers immediately replace `-1` by the
fallback column 2, which is `Option.getD 2` here. -/
def findHeaderColumn (g : Grid) (r : Nat) (header : String) : Option Nat :=
  findFrom
    (fun c => !(isAbsent (g.cell r c)) &&
      strStartsWith (strTrim (cellStr (g.cell r c))) header)
    0 g.ncols

/-- The statement-date scan of `_extract_metadata` (source lines 204-213):
walk the columns of the `Movimientos` row left to right, skip NaN cells, and
return the first `DD/MM/YYYY`-shaped substring found by `re.search`. -/
def scanRowForDate (g : Grid) (r : Nat) : Option String :=
  scanFrom
    (fun c =>
      if isAbsent (g.cell r c) then none
      else (findDateSub (cellStr (g.cell r c)).data).map String.mk)
    0 g.ncols

/-- Embedding of the dataclass `BancoChileMetadata`. -/
structure BancoChileMetadata where
  account_holder : String
  rut : String
  account_number : String
  currency : String
  available_balance : Rat
  accounting_balance : Rat
  total_debits : Rat
  total_credits : Rat
  statement_date : DateTime
deriving DecidableEq, Repr

/-- Embedding of the dataclass `BancoChileTransaction`.  `balance` is not
optional: it is always populated by construction. -/
structure BancoChileTransaction where
  date : DateTime
  description : String
  channel : String
  debit : Option Rat
  credit : Option Rat
  balance : Rat
deriving DecidableEq, Repr

/-- Bounds-checked positional read `df.iloc[r, c]`, raising `IndexError`
outside the frame. -/
def ilocCell (g : Grid) (r c : Nat) : Except String Cell :=
  if r < g.nrows ∧ c < g.ncols then .ok (g.cell r c) else .error "IndexError"

/-- Metadata value resolution for a single-value label row (source pattern at
lines 129-130 etc.): `str(df.iloc[row, find_value_column(df, row, 1)])`. -/
def metaValue (g : Grid) (r : Nat) : Except String String :=
  match ilocCell g r (findValueColumn g r 1) with
  | .error e => .error e
  | .ok c => .ok (cellStr c)

/-- The `statement_date` computation of `_extract_metadata` (source lines
204-216) given the index of the `Movimientos` row: the first date-shaped
substring in the row is fed to `strptime` (whose failure raises an uncaught
`ValueError`); if no pattern is found anywhere, `datetime.now()` — the
`now` argument — is used. -/
def stmtDateOf (g : Grid) (movIdx : Nat) (now : DateTime) : Except String DateTime :=
  match scanRowForDate g movIdx with
  | some s =>
    match parseFullDate s with
    | some d => .ok d
    | none => .error "ValueError: time data does not match format"
  | none => .ok now

/-- The whole statement-date block of `_extract_metadata` (source lines
195-216): locate the `Movimientos` row (failing with the source's error
message when absent) and compute the statement date from it. -/
def stmtDateStage (g : Grid) (now : DateTime) : Except String DateTime :=
  match findLabelRow g "Movimientos" with
  | none => .error "Could not find statement date"
  | some movIdx => stmtDateOf g movIdx now

/-- Embedding of `_extract_metadata` (source lines 122-228).  `now` is the
value `datetime.now()` would return during this call.  Label lookups happen
in source order; a missing label raises the source's `ValueError` message.
`df[1]` itself raises a `KeyError` when the frame has no column 1. -/
def extractMetadata (g : Grid) (now : DateTime) : Except String BancoChileMetadata :=
  if g.ncols < 2 then .error "KeyError: 1" else
  match findLabelRow g "Sr(a)" with
  | none => .error "Could not find account holder information"
  | some holderIdx =>
    match metaValue g holderIdx with
    | .error e => .error e
    | .ok accountHolder =>
      match findLabelRow g "Rut:" with
      | none => .error "Could not find RUT information"
      | some rutIdx =>
        match metaValue g rutIdx with
        | .error e => .error e
        | .ok rutVal =>
          match findLabelRow g "Cuenta" with
          | none => .error "Could not find account information"
          | some accountIdx =>
            match metaValue g accountIdx with
            | .error e => .error e
            | .ok accountNumber =>
              match findLabelRow g "Moneda:" with
              | none => .error "Could not find currency information"
              | some _ =>
                match findLabelRow g "Saldo Disponible" with
                | none => .error "Could not find balance information"
                | some balanceIdx =>
                  match ilocCell g (balanceIdx + 1) 1 with
                  | .error e => .error e
                  | .ok availCell =>
                    match ilocCell g (balanceIdx + 1)
                        ((findHeaderColumn g balanceIdx "Saldo Contable").getD 2) with
                    | .error e => .error e
                    | .ok contCell =>
                      match findLabelRow g "Total Cargos" with
                      | none => .error "Could not find totals information"
                      | some totalsIdx =>
                        match ilocCell g (totalsIdx + 1) 1 with
                        | .error e => .error e
                        | .ok debCell =>
                          match ilocCell g (totalsIdx + 1)
                              ((findHeaderColumn g totalsIdx "Total Abonos").getD 2) with
                          | .error e => .error e
                          | .ok credCell =>
                            match stmtDateStage g now with
                            | .error e => .error e
                            | .ok statementDate =>
                              .ok {
                                  account_holder := accountHolder
                                  rut := rutVal
                                  account_number := accountNumber
                                  currency := "CLP"
                                  available_balance := parseAmount availCell
                                  accounting_balance := parseAmount contCell
                                  total_debits := parseAmount debCell
                                  total_credits := parseAmount credCell
                                  statement_date := statementDate }

/-- Transaction column indices, after defaults. -/
structure ColMap where
  date : Nat
  description : Nat
  channel : Nat
  debit : Nat
  credit : Nat
  balance : Nat
deriving DecidableEq, Repr

/-- The partially built `col_map` dictionary of
`_detect_transaction_columns`. -/
structure ColAcc where
  date : Option Nat
  description : Option Nat
  channel : Option Nat
  debit : Option Nat
  credit : Option Nat
  balance : Option Nat
deriving DecidableEq, Repr

/-- One iteration of the header-matching loop of
`_detect_transaction_columns` (source lines 240-256): NaN cells are skipped,
and the stripped text is matched against the `if`/`elif` chain (exact
`Fecha`, exact `Descripción`, then the prefixes `Canal`, `Cargos`, `Abonos`,
`Saldo`).  A later matching column overwrites an earlier one, exactly like
the repeated dictionary assignment. -/
def detectStep (g : Grid) (hidx : Nat) (m : ColAcc) (col : Nat) : ColAcc :=
  let c := g.cell hidx col
  if isAbsent c then m
  else
    let s := strTrim (cellStr c)
    if s == "Fecha" then { m with date := some col }
    else if s == "Descripción" then { m with description := some col }
    else if strStartsWith s "Canal" then { m with channel := some col }
    else if strStartsWith s "Cargos" then { m with debit := some col }
    else if strStartsWith s "Abonos" then { m with credit := some col }
    else if strStartsWith s "Saldo" then { m with balance := some col }
    else m

/-- The `for col in range(df.shape[1])` loop of
`_detect_transaction_columns`, as start-index-plus-fuel recursion. -/
def detectLoop (g : Grid) (hidx : Nat) : ColAcc → Nat → Nat → ColAcc
  | m, _, 0 => m
  | m, start, fuel + 1 => detectLoop g hidx (detectStep g hidx m start) (start + 1) fuel

/-- Embedding of `_detect_transaction_columns` (source lines 230-266): run
the header-matching loop over all columns, then apply the `setdefault`
fallbacks date=1, description=2, channel=3, debit=4, credit=5, balance=6. -/
def detectTransactionColumns (g : Grid) (hidx : Nat) : ColMap :=
  let acc := detectLoop g hidx ⟨none, none, none, none, none, none⟩ 0 g.ncols
  ⟨acc.date.getD 1, acc.description.getD 2, acc.channel.getD 3,
    acc.debit.getD 4, acc.credit.getD 5, acc.balance.getD 6⟩

/-- The transaction built from an accepted row (source lines 301-323), given
the already-parsed date: description and channel are the stringified cells or
`""` when NaN, debit and credit are parsed amounts or `None` when NaN, and
balance is always a parsed amount. -/
def rowToTx (g : Grid) (cols : ColMap) (idx : Nat) (date : DateTime) :
    BancoChileTransaction where
  date := date
  description :=
    if isAbsent (g.cell idx cols.description) then ""
    else cellStr (g.cell idx cols.description)
  channel :=
    if isAbsent (g.cell idx cols.channel) then ""
    else cellStr (g.cell idx cols.channel)
  debit :=
    if isAbsent (g.cell idx cols.debit) then none
    else some (parseAmount (g.cell idx cols.debit))
  credit :=
    if isAbsent (g.cell idx cols.credit) then none
    else some (parseAmount (g.cell idx cols.credit))
  balance := parseAmount (g.cell idx cols.balance)

/-- Embedding of the row loop of `_extract_transactions` (source lines
287-330) over the listed row indices.  A `Series` lookup `row[col]` raises
`KeyError` when `col` is not a column of the frame; that exception is not in
the `except (ValueError, AttributeError)` clause, so it propagates.  An NaN
date cell means `continue`; a date cell whose text does not start with the
`DD/MM/YYYY` shape means `break`, as does a `strptime` failure (the caught
`ValueError`).  Reads happen in source order: date, description, channel,
debit, credit, balance. -/
def txLoop (g : Grid) (cols : ColMap) : List Nat → Except String (List BancoChileTransaction)
  | [] => .ok []
  | idx :: rest =>
    if cols.date < g.ncols then
      if isAbsent (g.cell idx cols.date) then txLoop g cols rest
      else if !(startsWithDateShape (cellStr (g.cell idx cols.date))) then .ok []
      else
        match parseFullDate (cellStr (g.cell idx cols.date)) with
        | none => .ok []
        | some date =>
          if cols.description < g.ncols then
            if cols.channel < g.ncols then
              if cols.debit < g.ncols then
                if cols.credit < g.ncols then
                  if cols.balance < g.ncols then
                    match txLoop g cols rest with
                    | .error e => .error e
                    | .ok txs => .ok (rowToTx g cols idx date :: txs)
                  else .error "KeyError"
                else .error "KeyError"
              else .error "KeyError"
            else .error "KeyError"
          else .error "KeyError"
    else .error "KeyError"

/-- Embedding of `_extract_transactions` (source lines 268-330): find the
header row (column-1 text starting with `Fecha`), detect the column map, and
run the row loop from the row after the header to the end of the frame. -/
def extractTransactions (g : Grid) : Except String (List BancoChileTransaction) :=
  if g.ncols < 2 then .error "KeyError: 1" else
  match findLabelRow g "Fecha" with
  | none => .error "Could not find transaction header"
  | some headerIdx =>
    txLoop g (detectTransactionColumns g headerIdx)
      (List.range' (headerIdx + 1) (g.nrows - (headerIdx + 1)))

/-- Embedding of `extract` (source lines 77-103): metadata first, then
transactions, both over the same loaded grid.  `now` is the clock reading a
`datetime.now()` call would produce during this extraction. -/
def extract (g : Grid) (now : DateTime) :
    Except String (BancoChileMetadata × List BancoChileTransaction) :=
  match extractMetadata g now with
  | .error e => .error e
  | .ok md =>
    match extractTransactions g with
    | .error e => .error e
    | .ok txs => .ok (md, txs)

/-- Embedding of `_detect_excel_engine` (source lines 56-75): read the first
4 bytes of the file and choose the decoder from the first two of them — `PK`
(the ZIP local-file-header magic prefix) selects the XLSX decoder
`openpyxl`, anything else the legacy XLS decoder `xlrd`.  The input is the
file's byte sequence; no file name or extension is consulted. -/
def detectExcelEngine (fileBytes : List Nat) : String :=
  let signature := fileBytes.take 4
  if signature.take 2 = [80, 75] then "openpyxl" else "xlrd"

/-! ### Concrete statement grids used to evaluate the extractor -/

/-- Shorthand for a text cell. -/
def txt (s : String) : Cell := .text s

/-- A well-formed statement grid in the layout described by the spec: label
rows in column 1, a balance block, a totals block, a `Movimientos` date row,
a transaction header, one transaction row, and a footer row. -/
def gBase : Grid := ⟨[
  [.absent, txt "Sr(a):", txt "Test Holder"],
  [.absent, txt "Rut:", txt "11.111.111-1"],
  [.absent, txt "Cuenta:", txt "00-123-45678-90"],
  [.absent, txt "Moneda:", txt "Pesos"],
  [.absent, txt "Saldo Disponible", txt "Saldo Contable"],
  [.absent, txt "1.000", txt "2.000"],
  [.absent, txt "Total Cargos", txt "Total Abonos"],
  [.absent, txt "300", txt "400"],
  [.absent, txt "Movimientos al 15/03/2024"],
  [.absent, txt "Fecha", txt "Descripción", txt "Canal o Sucursal",
    txt "Cargos (CLP)", txt "Abonos (CLP)", txt "Saldo (CLP)"],
  [.absent, txt "05/01/2024", txt "Compra Tienda X", txt "App",
    txt "15.000", .absent, txt "485.000"],
  [.absent, txt "Total", .absent, .absent, .absent, .absent, .absent]
]⟩

/-- Clock reading used when evaluating the extractor on the concrete
grids. -/
def now0 : DateTime := ⟨2025, 6, 1, 0⟩

/-- A second, later clock reading (same day, different sub-day part). -/
def now1 : DateTime := ⟨2025, 6, 1, 1⟩

/-- The metadata the extractor produces from `gBase`. -/
def mdBase : BancoChileMetadata :=
  ⟨"Test Holder", "11.111.111-1", "00-123-45678-90", "CLP",
    1000, 2000, 300, 400, ⟨2024, 3, 15, 0⟩⟩

/-- The single transaction the extractor produces from `gBase`. -/
def txBase : BancoChileTransaction :=
  ⟨⟨2024, 1, 5, 0⟩, "Compra Tienda X", "App", some 15000, none, 485000⟩

/-- Helper to rebuild `gBase` with different rows from index 9 on (header,
transaction rows, footer). -/
def gBaseWith (tail : List (List Cell)) : Grid :=
  ⟨gBase.rows.take 9 ++ tail⟩

/-- `gBase` with a transaction row whose debit and credit cells are both
non-empty. -/
def gBoth : Grid := gBaseWith [
  [.absent, txt "Fecha", txt "Descripción", txt "Canal o Sucursal",
    txt "Cargos (CLP)", txt "Abonos (CLP)", txt "Saldo (CLP)"],
  [.absent, txt "05/01/2024", txt "Compra Tienda X", txt "App",
    txt "100", txt "200", txt "485.000"],
  [.absent, txt "Total", .absent, .absent, .absent, .absent, .absent]
]

/-- The transaction the extractor produces from `gBoth`: both debit and
credit populated. -/
def txBoth : BancoChileTransaction :=
  ⟨⟨2024, 1, 5, 0⟩, "Compra Tienda X", "App", some 100, some 200, 485000⟩

/-- `gBase` with a transaction row whose debit cell holds a dash (present
but with no parseable digits) and whose credit cell is empty. -/
def gDash : Grid := gBaseWith [
  [.absent, txt "Fecha", txt "Descripción", txt "Canal o Sucursal",
    txt "Cargos (CLP)", txt "Abonos (CLP)", txt "Saldo (CLP)"],
  [.absent, txt "05/01/2024", txt "Compra Tienda X", txt "App",
    txt " - ", .absent, txt "485.000"],
  [.absent, txt "Total", .absent, .absent, .absent, .absent, .absent]
]

/-- The transaction the extractor produces from `gDash`: a populated
zero debit and an unpopulated credit. -/
def txDash : BancoChileTransaction :=
  ⟨⟨2024, 1, 5, 0⟩, "Compra Tienda X", "App", some 0, none, 485000⟩

/-- `gBase` with two transaction rows followed directly by a non-date footer
row. -/
def gFooter : Grid := gBaseWith [
  [.absent, txt "Fecha", txt "Descripción", txt "Canal o Sucursal",
    txt "Cargos (CLP)", txt "Abonos (CLP)", txt "Saldo (CLP)"],
  [.absent, txt "05/01/2024", txt "Compra Tienda X", txt "App",
    txt "15.000", .absent, txt "485.000"],
  [.absent, txt "06/01/2024", txt "Transferencia A: Juan", txt "Web",
    .absent, txt "20.000", txt "505.000"],
  [.absent, txt "Total", .absent, .absent, .absent, .absent, .absent]
]

/-- The second transaction the extractor produces from `gFooter`. -/
def txF2 : BancoChileTransaction :=
  ⟨⟨2024, 1, 6, 0⟩, "Transferencia A: Juan", "Web", none, some 20000, 505000⟩

/-- `gBase` with a transaction header that has no recognizable credit-column
text (column 5 of the header row is empty); the transaction row carries a
credit amount in legacy column 5. -/
def gNoAbonos : Grid := gBaseWith [
  [.absent, txt "Fecha", txt "Descripción", txt "Canal o Sucursal",
    txt "Cargos (CLP)", .absent, txt "Saldo (CLP)"],
  [.absent, txt "05/01/2024", txt "Compra Tienda X", txt "App",
    .absent, txt "500", txt "485.000"],
  [.absent, txt "Total", .absent, .absent, .absent, .absent, .absent]
]

/-- The transaction the extractor produces from `gNoAbonos`: the credit is
read from the legacy fixed column 5. -/
def txNoAbonos : BancoChileTransaction :=
  ⟨⟨2024, 1, 5, 0⟩, "Compra Tienda X", "App", none, some 500, 485000⟩

/-- `gBase` with a `Movimientos` row that contains no `DD/MM/YYYY` pattern
anywhere. -/
def gNoDate : Grid := ⟨
  gBase.rows.take 8 ++ ([.absent, txt "Movimientos al"] :: gBase.rows.drop 9)⟩

/-! ### Generic facts about the first-match scans -/

/-- A first-match scan returns `none` exactly when no index in its window
satisfies the predicate. -/
theorem findFrom_eq_none_iff (p : Nat → Bool) :
    ∀ fuel start, findFrom p start fuel = none ↔
      ∀ i, start ≤ i → i < start + fuel → p i = false := by
  intro fuel
  induction fuel with
  | zero =>
    intro start
    constructor
    · intro _ i h1 h2
      omega
    · intro _
      rfl
  | succ n ih =>
    intro start
    simp only [findFrom]
    by_cases hp : p start = true
    · rw [if_pos hp]
      constructor
      · intro hc
        exact Option.noConfusion hc
      · intro hall
        exact absurd (hall start Nat.le.refl (by omega)) (by simp [hp])
    · rw [if_neg hp]
      rw [ih (start + 1)]
      constructor
      · intro hall i h1 h2
        rcases Nat.eq_or_lt_of_le h1 with heq | hlt
        · subst heq
          exact Bool.eq_false_iff.mpr hp
        · exact hall i hlt (by omega)
      · intro hall i h1 h2
        exact hall i (by omega) (by omega)

/-- A first-match scan that returns `some r` found at `r` the first
satisfying index of its window. -/
theorem findFrom_eq_some_spec (p : Nat → Bool) :
    ∀ fuel start r, findFrom p start fuel = some r →
      start ≤ r ∧ r < start + fuel ∧ p r = true ∧
        ∀ i, start ≤ i → i < r → p i = false := by
  intro fuel
  induction fuel with
  | zero =>
    intro start r h
    exact Option.noConfusion h
  | succ n ih =>
    intro start r h
    simp only [findFrom] at h
    by_cases hp : p start = true
    · rw [if_pos hp] at h
      have hr : start = r := Option.some.inj h
      subst hr
      exact ⟨Nat.le.refl, by omega, hp, fun i h1 h2 => by omega⟩
    · rw [if_neg hp] at h
      obtain ⟨h1, h2, h3, h4⟩ := ih (start + 1) r h
      refine ⟨by omega, by omega, h3, ?_⟩
      intro i hi1 hi2
      rcases Nat.eq_or_lt_of_le hi1 with heq | hlt
      · subst heq
        exact Bool.eq_false_iff.mpr hp
      · exact h4 i hlt hi2

/-- A first-hit scan returns `none` exactly when the function is `none` on
the whole window. -/
theorem scanFrom_eq_none_iff {α : Type} (f : Nat → Option α) :
    ∀ fuel start, scanFrom f start fuel = none ↔
      ∀ i, start ≤ i → i < start + fuel → f i = none := by
  intro fuel
  induction fuel with
  | zero =>
    intro start
    constructor
    · intro _ i h1 h2
      omega
    · intro _
      rfl
  | succ n ih =>
    intro start
    simp only [scanFrom]
    cases hf : f start with
    | some a =>
      constructor
      · intro hc
        exact Option.noConfusion hc
      · intro hall
        exact absurd (hall start Nat.le.refl (by omega)) (by simp [hf])
    | none =>
      rw [ih (start + 1)]
      constructor
      · intro hall i h1 h2
        rcases Nat.eq_or_lt_of_le h1 with heq | hlt
        · subst heq
          exact hf
        · exact hall i hlt (by omega)
      · intro hall i h1 h2
        exact hall i (by omega) (by omega)

/-- A first-hit scan that returns `some a` produced it at the first index of
its window where the function is not `none`. -/
theorem scanFrom_eq_some_spec {α : Type} (f : Nat → Option α) :
    ∀ fuel start a, scanFrom f start fuel = some a →
      ∃ i, start ≤ i ∧ i < start + fuel ∧ f i = some a ∧
        ∀ j, start ≤ j → j < i → f j = none := by
  intro fuel
  induction fuel with
  | zero =>
    intro start a h
    exact Option.noConfusion h
  | succ n ih =>
    intro start a h
    simp only [scanFrom] at h
    cases hf : f start with
    | some b =>
      rw [hf] at h
      have hb : b = a := Option.some.inj h
      subst hb
      exact ⟨start, Nat.le.refl, by omega, hf, fun j h1 h2 => by omega⟩
    | none =>
      rw [hf] at h
      obtain ⟨i, h1, h2, h3, h4⟩ := ih (start + 1) a h
      refine ⟨i, by omega, by omega, h3, ?_⟩
      intro j hj1 hj2
      rcases Nat.eq_or_lt_of_le hj1 with heq | hlt
      · subst heq
        exact hf
      · exact h4 j hlt hj2

/-! ### Inversion lemmas for the metadata extraction -/

/-- A successful positional read is the in-bounds grid cell. -/
theorem ilocCell_ok (g : Grid) (r c : Nat) (x : Cell) (h : ilocCell g r c = .ok x) :
    x = g.cell r c ∧ r < g.nrows ∧ c < g.ncols := by
  unfold ilocCell at h
  split at h
  · rename_i hb
    exact ⟨(Except.ok.inj h).symm, hb.1, hb.2⟩
  · exact Except.noConfusion h

/-- A successful metadata value resolution is the stringified cell at the
resolved value column. -/
theorem metaValue_ok (g : Grid) (r : Nat) (v : String) (h : metaValue g r = .ok v) :
    v = cellStr (g.cell r (findValueColumn g r 1)) := by
  unfold metaValue at h
  split at h
  · exact Except.noConfusion h
  · rename_i c hc
    obtain ⟨hcell, _, _⟩ := ilocCell_ok g r (findValueColumn g r 1) c hc
    rw [← hcell]
    exact (Except.ok.inj h).symm

/-- A successful statement-date stage found the `Movimientos` row and either
took the date from the first pattern in it or fell back to `now`. -/
theorem stmtDateStage_ok (g : Grid) (now : DateTime) (d : DateTime)
    (h : stmtDateStage g now = .ok d) :
    ∃ mI, findLabelRow g "Movimientos" = some mI ∧
      ((scanRowForDate g mI = none ∧ d = now) ∨
       (∃ s, scanRowForDate g mI = some s ∧ parseFullDate s = some d)) := by
  unfold stmtDateStage at h
  split at h
  · exact Except.noConfusion h
  · rename_i mI hm
    refine ⟨mI, hm, ?_⟩
    unfold stmtDateOf at h
    split at h
    · rename_i s hs
      split at h
      · rename_i d2 hd
        have hdd : d2 = d := Except.ok.inj h
        subst hdd
        exact Or.inr ⟨s, hs, hd⟩
      · exact Except.noConfusion h
    · rename_i hs
      exact Or.inl ⟨hs, (Except.ok.inj h).symm⟩

/-- Successful extraction succeeds on both phases, metadata and
transactions. -/
theorem extract_ok_parts (g : Grid) (now : DateTime) (md : BancoChileMetadata)
    (txs : List BancoChileTransaction) (h : extract g now = .ok (md, txs)) :
    extractMetadata g now = .ok md ∧ extractTransactions g = .ok txs := by
  unfold extract at h
  repeat (split at h <;> try exact Except.noConfusion h)
  rename_i x1 md2 hmd x2 txs2 htx
  have hp := Except.ok.inj h
  injection hp with h1 h2
  subst h1
  subst h2
  exact ⟨hmd, htx⟩

/-- Successful transaction extraction found the `Fecha` header row and ran
the row loop from the next row to the end of the frame. -/
theorem extractTransactions_ok_parts (g : Grid) (txs : List BancoChileTransaction)
    (h : extractTransactions g = .ok txs) :
    ∃ hIdx, findLabelRow g "Fecha" = some hIdx ∧
      txLoop g (detectTransactionColumns g hIdx)
        (List.range' (hIdx + 1) (g.nrows - (hIdx + 1))) = .ok txs ∧
      2 ≤ g.ncols := by
  unfold extractTransactions at h
  repeat (split at h <;> try exact Except.noConfusion h)
  rename_i hnc x1 hIdx hF
  exact ⟨hIdx, hF, h, by omega⟩

/-- Master decomposition of a successful metadata extraction: every metadata
field is the value the source's label-scanning rules compute from the
grid. -/
theorem extractMetadata_ok_spec (g : Grid) (now : DateTime) (md : BancoChileMetadata)
    (h : extractMetadata g now = .ok md) :
    (∃ hI, findLabelRow g "Sr(a)" = some hI ∧
       md.account_holder = cellStr (g.cell hI (findValueColumn g hI 1))) ∧
    (∃ rI, findLabelRow g "Rut:" = some rI ∧
       md.rut = cellStr (g.cell rI (findValueColumn g rI 1))) ∧
    (∃ aI, findLabelRow g "Cuenta" = some aI ∧
       md.account_number = cellStr (g.cell aI (findValueColumn g aI 1))) ∧
    md.currency = "CLP" ∧
    (∃ bI, findLabelRow g "Saldo Disponible" = some bI ∧
       md.available_balance = parseAmount (g.cell (bI + 1) 1) ∧
       md.accounting_balance =
         parseAmount (g.cell (bI + 1) ((findHeaderColumn g bI "Saldo Contable").getD 2))) ∧
    (∃ tI, findLabelRow g "Total Cargos" = some tI ∧
       md.total_debits = parseAmount (g.cell (tI + 1) 1) ∧
       md.total_credits =
         parseAmount (g.cell (tI + 1) ((findHeaderColumn g tI "Total Abonos").getD 2))) ∧
    (∃ mI, findLabelRow g "Movimientos" = some mI ∧
       ((scanRowForDate g mI = none ∧ md.statement_date = now) ∨
        (∃ s, scanRowForDate g mI = some s ∧ parseFullDate s = some md.statement_date))) := by
  unfold extractMetadata at h
  repeat (split at h <;> try exact Except.noConfusion h)
  rename_i hnc x1 holderIdx hH x2 ah hAH x3 rutIdx hR x4 rv hRV x5 aIdx hA x6 an hAN
    x7 cIdx hC x8 bIdx hB x9 availCell hAvail x10 contCell hCont x11 tIdx hT
    x12 debCell hDeb x13 credCell hCred x14 sd hSD
  have hmd := Except.ok.inj h
  subst hmd
  refine ⟨⟨holderIdx, hH, ?_⟩, ⟨rutIdx, hR, ?_⟩, ⟨aIdx, hA, ?_⟩, rfl,
    ⟨bIdx, hB, ?_, ?_⟩, ⟨tIdx, hT, ?_, ?_⟩, ?_⟩
  · exact metaValue_ok g holderIdx ah hAH
  · exact metaValue_ok g rutIdx rv hRV
  · exact metaValue_ok g aIdx an hAN
  · show parseAmount availCell = _
    rw [(ilocCell_ok _ _ _ _ hAvail).1]
  · show parseAmount contCell = _
    rw [(ilocCell_ok _ _ _ _ hCont).1]
  · show parseAmount debCell = _
    rw [(ilocCell_ok _ _ _ _ hDeb).1]
  · show parseAmount credCell = _
    rw [(ilocCell_ok _ _ _ _ hCred).1]
  · obtain ⟨mI, hm, hd⟩ := stmtDateStage_ok g now sd hSD
    exact ⟨mI, hm, hd⟩

/-! ### Facts about the transaction-row loop -/

/-- Every transaction a successful row loop emits comes from one of the
listed rows, with a non-empty date cell whose text parses as a full date,
and is exactly the record `rowToTx` builds from that row. -/
theorem txLoop_ok_mem (g : Grid) (cols : ColMap) :
    ∀ (l : List Nat) (txs : List BancoChileTransaction),
      txLoop g cols l = .ok txs → ∀ tx ∈ txs,
        ∃ idx ∈ l, ∃ d,
          isAbsent (g.cell idx cols.date) = false ∧
          parseFullDate (cellStr (g.cell idx cols.date)) = some d ∧
          tx = rowToTx g cols idx d := by
  intro l
  induction l with
  | nil =>
    intro txs h tx htx
    have : txs = [] := (Except.ok.inj h).symm
    subst this
    exact absurd htx (List.not_mem_nil tx)
  | cons idx rest ih =>
    intro txs h tx htx
    unfold txLoop at h
    split at h
    · split at h
      · obtain ⟨i, hi, d, h1, h2, h3⟩ := ih txs h tx htx
        exact ⟨i, List.mem_cons_of_mem idx hi, d, h1, h2, h3⟩
      · split at h
        · have : txs = [] := (Except.ok.inj h).symm
          subst this
          exact absurd htx (List.not_mem_nil tx)
        · rename_i hAbs hShape
          split at h
          · have : txs = [] := (Except.ok.inj h).symm
            subst this
            exact absurd htx (List.not_mem_nil tx)
          · rename_i d hd
            split at h
            · split at h
              · split at h
                · split at h
                  · split at h
                    · split at h
                      · exact Except.noConfusion h
                      · rename_i txs2 htxs2
                        have : rowToTx g cols idx d :: txs2 = txs := Except.ok.inj h
                        subst this
                        rcases List.mem_cons.mp htx with heq | hmem
                        · exact ⟨idx, List.mem_cons_self idx rest, d,
                            Bool.not_eq_true _ ▸ hAbs, hd, heq⟩
                        · obtain ⟨i, hi, d2, h1, h2, h3⟩ := ih txs2 htxs2 tx hmem
                          exact ⟨i, List.mem_cons_of_mem idx hi, d2, h1, h2, h3⟩
                    · exact Except.noConfusion h
                  · exact Except.noConfusion h
                · exact Except.noConfusion h
              · exact Except.noConfusion h
            · exact Except.noConfusion h
    · exact Except.noConfusion h

/-! ### Facts about transaction-column detection -/

/-- The header-matching loop leaves a projection of the accumulator
unchanged as long as no step in its window changes it. -/
theorem detectLoop_preserves (g : Grid) (hidx : Nat) (sel : ColAcc → Option Nat) :
    ∀ fuel start m,
      (∀ m2 i, start ≤ i → i < start + fuel → sel (detectStep g hidx m2 i) = sel m2) →
      sel (detectLoop g hidx m start fuel) = sel m := by
  intro fuel
  induction fuel with
  | zero =>
    intro start m _
    rfl
  | succ n ih =>
    intro start m hstep
    simp only [detectLoop]
    rw [ih (start + 1) (detectStep g hidx m start)
      (fun m2 i h1 h2 => hstep m2 i (by omega) (by omega))]
    exact hstep m start Nat.le.refl (by omega)

/-- A header-loop step never changes a projection whose text pattern the
scanned cell does not match: case analysis over the `if`/`elif` chain. -/
theorem detectStep_credit_eq (g : Grid) (hidx : Nat) (m : ColAcc) (i : Nat)
    (hno : isAbsent (g.cell hidx i) = false →
      strStartsWith (strTrim (cellStr (g.cell hidx i))) "Abonos" = false) :
    (detectStep g hidx m i).credit = m.credit := by
  simp only [detectStep]
  split_ifs with h1 h2 h3 h4 h5 h6 h7
  · rfl
  · rfl
  · rfl
  · rfl
  · rfl
  · exact absurd h6 (by simp [hno (Bool.not_eq_true _ ▸ h1)])
  · rfl
  · rfl

/-- Companion to the credit-projection step lemma, for the date column. -/
theorem detectStep_date_eq (g : Grid) (hidx : Nat) (m : ColAcc) (i : Nat)
    (hno : isAbsent (g.cell hidx i) = false →
      (strTrim (cellStr (g.cell hidx i)) == "Fecha") = false) :
    (detectStep g hidx m i).date = m.date := by
  simp only [detectStep]
  split_ifs with h1 h2 h3 h4 h5 h6 h7
  · rfl
  · exact absurd h2 (by simp [hno (Bool.not_eq_true _ ▸ h1)])
  · rfl
  · rfl
  · rfl
  · rfl
  · rfl
  · rfl

/-- Companion to the credit-projection step lemma, for the description
column. -/
theorem detectStep_description_eq (g : Grid) (hidx : Nat) (m : ColAcc) (i : Nat)
    (hno : isAbsent (g.cell hidx i) = false →
      (strTrim (cellStr (g.cell hidx i)) == "Descripción") = false) :
    (detectStep g hidx m i).description = m.description := by
  simp only [detectStep]
  split_ifs with h1 h2 h3 h4 h5 h6 h7
  · rfl
  · rfl
  · exact absurd h3 (by simp [hno (Bool.not_eq_true _ ▸ h1)])
  · rfl
  · rfl
  · rfl
  · rfl
  · rfl

/-- Companion to the credit-projection step lemma, for the channel
column. -/
theorem detectStep_channel_eq (g : Grid) (hidx : Nat) (m : ColAcc) (i : Nat)
    (hno : isAbsent (g.cell hidx i) = false →
      strStartsWith (strTrim (cellStr (g.cell hidx i))) "Canal" = false) :
    (detectStep g hidx m i).channel = m.channel := by
  simp only [detectStep]
  split_ifs with h1 h2 h3 h4 h5 h6 h7
  · rfl
  · rfl
  · rfl
  · exact absurd h4 (by simp [hno (Bool.not_eq_true _ ▸ h1)])
  · rfl
  · rfl
  · rfl
  · rfl

/-- Companion to the credit-projection step lemma, for the debit column. -/
theorem detectStep_debit_eq (g : Grid) (hidx : Nat) (m : ColAcc) (i : Nat)
    (hno : isAbsent (g.cell hidx i) = false →
      strStartsWith (strTrim (cellStr (g.cell hidx i))) "Cargos" = false) :
    (detectStep g hidx m i).debit = m.debit := by
  simp only [detectStep]
  split_ifs with h1 h2 h3 h4 h5 h6 h7
  · rfl
  · rfl
  · rfl
  · rfl
  · exact absurd h5 (by simp [hno (Bool.not_eq_true _ ▸ h1)])
  · rfl
  · rfl
  · rfl

/-- Companion to the credit-projection step lemma, for the balance
column. -/
theorem detectStep_balance_eq (g : Grid) (hidx : Nat) (m : ColAcc) (i : Nat)
    (hno : isAbsent (g.cell hidx i) = false →
      strStartsWith (strTrim (cellStr (g.cell hidx i))) "Saldo" = false) :
    (detectStep g hidx m i).balance = m.balance := by
  simp only [detectStep]
  split_ifs with h1 h2 h3 h4 h5 h6 h7
  · rfl
  · rfl
  · rfl
  · rfl
  · rfl
  · rfl
  · exact absurd h7 (by simp [hno (Bool.not_eq_true _ ▸ h1)])
  · rfl

/-! ### The claims -/

/-- C3: `_parse_amount` converts a numeric cell via its (value-preserving)
text representation; a text cell has comma and period characters stripped
unconditionally and the remaining digits parsed as an integer-valued
decimal, an empty or unparseable cell yielding zero; and the parser is a
total function (the Python original never raises).  The stated examples:
`"1.234.567"` parses to 1234567, `"12,500"` to 12500, an empty cell to 0 and
the numeric cell 1500.0 to 1500. -/
theorem claim3_parse_amount :
    (∀ q : Rat, parseAmount (.num q) = q) ∧
    (∀ s : String, parseAmount (.text s) =
      (match parseSignedDigits (cleanAmountStr s) with
       | some n => (n : Rat)
       | none => 0)) ∧
    parseAmount (.text "1.234.567") = 1234567 ∧
    parseAmount (.text "12,500") = 12500 ∧
    parseAmount .absent = 0 ∧
    parseAmount (.num 1500) = 1500 := by
  refine ⟨fun q => rfl, fun s => rfl, by decide, by decide, rfl, rfl⟩

/-- C4: `_detect_excel_engine` routes a file purely by content: the bytes of
the file (never its name or extension) are inspected, and a leading `PK`
ZIP-magic prefix selects the XLSX decoder `openpyxl` while anything else
selects the legacy XLS decoder `xlrd`. -/
theorem claim4_engine_sniffing (bs : List Nat) :
    detectExcelEngine bs = (if bs.take 2 = [80, 75] then "openpyxl" else "xlrd") ∧
    (detectExcelEngine bs = "openpyxl" ↔ bs.take 2 = [80, 75]) ∧
    (detectExcelEngine bs = "xlrd" ↔ ¬bs.take 2 = [80, 75]) := by
  have ht : (bs.take 4).take 2 = bs.take 2 := by
    simp [List.take_take]
  refine ⟨?_, ?_, ?_⟩
  · simp only [detectExcelEngine]
    rw [ht]
  · simp only [detectExcelEngine]
    rw [ht]
    by_cases hp : bs.take 2 = [80, 75]
    · simp [hp]
    · simp [hp]
  · simp only [detectExcelEngine]
    rw [ht]
    by_cases hp : bs.take 2 = [80, 75]
    · simp [hp]
    · simp [hp]

/-- C2: in the transaction-row loop, a row with an empty date cell is
skipped and iteration continues; a row whose date text does not start with
the `DD/MM/YYYY` shape stops iteration with no error, as does a `strptime`
parse failure (the caught `ValueError`); and on the concrete two-transaction
grid followed directly by a non-date footer row, extraction returns exactly
the two preceding transactions and no error. -/
theorem claim2_row_iteration (g : Grid) (cols : ColMap) (idx : Nat) (rest : List Nat)
    (hcol : cols.date < g.ncols) :
    (isAbsent (g.cell idx cols.date) = true →
      txLoop g cols (idx :: rest) = txLoop g cols rest) ∧
    (isAbsent (g.cell idx cols.date) = false →
      startsWithDateShape (cellStr (g.cell idx cols.date)) = false →
      txLoop g cols (idx :: rest) = .ok []) ∧
    (isAbsent (g.cell idx cols.date) = false →
      parseFullDate (cellStr (g.cell idx cols.date)) = none →
      txLoop g cols (idx :: rest) = .ok []) ∧
    extract gFooter now0 = .ok (mdBase, [txBase, txF2]) := by
  refine ⟨?_, ?_, ?_, by rfl⟩
  · intro hA
    simp [txLoop, hcol, hA]
  · intro hA hS
    simp [txLoop, hcol, hA, hS]
  · intro hA hP
    cases hS : startsWithDateShape (cellStr (g.cell idx cols.date)) with
    | false => simp [txLoop, hcol, hA, hS]
    | true => simp [txLoop, hcol, hA, hS, hP]

/-- Witness for C2: the footer row of `gBase` (row 11, date cell `Total`)
stops the loop with an ok-empty result. -/
theorem claim2_row_iteration_witness :
    txLoop gBase ⟨1, 2, 3, 4, 5, 6⟩ [11] = .ok [] :=
  (claim2_row_iteration gBase ⟨1, 2, 3, 4, 5, 6⟩ 11 [] (by decide)).2.1
    (by rfl) (by rfl)

/-- C7: any transaction column whose known header text (exact `Fecha`,
exact `Descripción`, prefixes `Canal` / `Cargos` / `Abonos` / `Saldo`) is
not found in the header row defaults to the fixed legacy position date=1,
description=2, channel=3, debit=4, credit=5, balance=6; in particular, on
the concrete grid whose header row lacks any recognizable credit text,
extraction still returns the transaction with its credit read from legacy
column 5. -/
theorem claim7_column_defaults (g : Grid) (hidx : Nat) :
    ((∀ c, c < g.ncols → isAbsent (g.cell hidx c) = false →
        (strTrim (cellStr (g.cell hidx c)) == "Fecha") = false) →
      (detectTransactionColumns g hidx).date = 1) ∧
    ((∀ c, c < g.ncols → isAbsent (g.cell hidx c) = false →
        (strTrim (cellStr (g.cell hidx c)) == "Descripción") = false) →
      (detectTransactionColumns g hidx).description = 2) ∧
    ((∀ c, c < g.ncols → isAbsent (g.cell hidx c) = false →
        strStartsWith (strTrim (cellStr (g.cell hidx c))) "Canal" = false) →
      (detectTransactionColumns g hidx).channel = 3) ∧
    ((∀ c, c < g.ncols → isAbsent (g.cell hidx c) = false →
        strStartsWith (strTrim (cellStr (g.cell hidx c))) "Cargos" = false) →
      (detectTransactionColumns g hidx).debit = 4) ∧
    ((∀ c, c < g.ncols → isAbsent (g.cell hidx c) = false →
        strStartsWith (strTrim (cellStr (g.cell hidx c))) "Abonos" = false) →
      (detectTransactionColumns g hidx).credit = 5) ∧
    ((∀ c, c < g.ncols → isAbsent (g.cell hidx c) = false →
        strStartsWith (strTrim (cellStr (g.cell hidx c))) "Saldo" = false) →
      (detectTransactionColumns g hidx).balance = 6) ∧
    extract gNoAbonos now0 = .ok (mdBase, [txNoAbonos]) := by
  refine ⟨?_, ?_, ?_, ?_, ?_, ?_, by rfl⟩
  · intro hno
    simp only [detectTransactionColumns]
    have h2 : (detectLoop g hidx ⟨none, none, none, none, none, none⟩ 0 g.ncols).date
        = (⟨none, none, none, none, none, none⟩ : ColAcc).date :=
      detectLoop_preserves g hidx (fun m => m.date) g.ncols 0 _
        (fun m2 i h1 h2 => detectStep_date_eq g hidx m2 i
          (fun hab => hno i (by omega) hab))
    rw [h2]
    rfl
  · intro hno
    simp only [detectTransactionColumns]
    have h2 : (detectLoop g hidx ⟨none, none, none, none, none, none⟩ 0 g.ncols).description
        = (⟨none, none, none, none, none, none⟩ : ColAcc).description :=
      detectLoop_preserves g hidx (fun m => m.description) g.ncols 0 _
        (fun m2 i h1 h2 => detectStep_description_eq g hidx m2 i
          (fun hab => hno i (by omega) hab))
    rw [h2]
    rfl
  · intro hno
    simp only [detectTransactionColumns]
    have h2 : (detectLoop g hidx ⟨none, none, none, none, none, none⟩ 0 g.ncols).channel
        = (⟨none, none, none, none, none, none⟩ : ColAcc).channel :=
      detectLoop_preserves g hidx (fun m => m.channel) g.ncols 0 _
        (fun m2 i h1 h2 => detectStep_channel_eq g hidx m2 i
          (fun hab => hno i (by omega) hab))
    rw [h2]
    rfl
  · intro hno
    simp only [detectTransactionColumns]
    have h2 : (detectLoop g hidx ⟨none, none, none, none, none, none⟩ 0 g.ncols).debit
        = (⟨none, none, none, none, none, none⟩ : ColAcc).debit :=
      detectLoop_preserves g hidx (fun m => m.debit) g.ncols 0 _
        (fun m2 i h1 h2 => detectStep_debit_eq g hidx m2 i
          (fun hab => hno i (by omega) hab))
    rw [h2]
    rfl
  · intro hno
    simp only [detectTransactionColumns]
    have h2 : (detectLoop g hidx ⟨none, none, none, none, none, none⟩ 0 g.ncols).credit
        = (⟨none, none, none, none, none, none⟩ : ColAcc).credit :=
      detectLoop_preserves g hidx (fun m => m.credit) g.ncols 0 _
        (fun m2 i h1 h2 => detectStep_credit_eq g hidx m2 i
          (fun hab => hno i (by omega) hab))
    rw [h2]
    rfl
  · intro hno
    simp only [detectTransactionColumns]
    have h2 : (detectLoop g hidx ⟨none, none, none, none, none, none⟩ 0 g.ncols).balance
        = (⟨none, none, none, none, none, none⟩ : ColAcc).balance :=
      detectLoop_preserves g hidx (fun m => m.balance) g.ncols 0 _
        (fun m2 i h1 h2 => detectStep_balance_eq g hidx m2 i
          (fun hab => hno i (by omega) hab))
    rw [h2]
    rfl

/-- Witness for C7: row 0 of `gBase` contains none of the known header
texts, so the credit column defaults to the legacy position 5. -/
theorem claim7_column_defaults_witness :
    (detectTransactionColumns gBase 0).credit = 5 :=
  (claim7_column_defaults gBase 0).2.2.2.2.1 (by decide)

/-- C5: each single-value metadata label (holder `Sr(a)`, `Rut:`, account
`Cuenta`) is resolved from the first row, top to bottom, whose column-1
stripped text starts with the label — extraction fails when no row matches —
and its value is the stringified first non-empty cell strictly right of
column 1 in that row, defaulting to column 2 when every rightward cell is
empty. -/
theorem claim5_metadata_labels (g : Grid) (now : DateTime) :
    (∀ label r, findLabelRow g label = some r →
      r < g.nrows ∧ labelMatch g r label = true ∧
        ∀ q, q < r → labelMatch g q label = false) ∧
    (∀ label, findLabelRow g label = none →
      ∀ r, r < g.nrows → labelMatch g r label = false) ∧
    (∀ r c, findFrom (fun c2 => !(isAbsent (g.cell r c2))) 2 (g.ncols - 2) = some c →
      findValueColumn g r 1 = c ∧ 2 ≤ c ∧ c < g.ncols ∧
        isAbsent (g.cell r c) = false ∧
        ∀ c2, 2 ≤ c2 → c2 < c → isAbsent (g.cell r c2) = true) ∧
    (∀ r, (∀ c, 2 ≤ c → c < g.ncols → isAbsent (g.cell r c) = true) →
      findValueColumn g r 1 = 2) ∧
    (findLabelRow g "Sr(a)" = none → ∃ e, extract g now = .error e) ∧
    (findLabelRow g "Rut:" = none → ∃ e, extract g now = .error e) ∧
    (findLabelRow g "Cuenta" = none → ∃ e, extract g now = .error e) ∧
    (∀ md txs, extract g now = .ok (md, txs) →
      (∃ hI, findLabelRow g "Sr(a)" = some hI ∧
        md.account_holder = cellStr (g.cell hI (findValueColumn g hI 1))) ∧
      (∃ rI, findLabelRow g "Rut:" = some rI ∧
        md.rut = cellStr (g.cell rI (findValueColumn g rI 1))) ∧
      (∃ aI, findLabelRow g "Cuenta" = some aI ∧
        md.account_number = cellStr (g.cell aI (findValueColumn g aI 1)))) := by
  refine ⟨?_, ?_, ?_, ?_, ?_, ?_, ?_, ?_⟩
  · intro label r h
    obtain ⟨h1, h2, h3, h4⟩ :=
      findFrom_eq_some_spec (fun q => labelMatch g q label) g.nrows 0 r h
    exact ⟨by omega, h3, fun q hq => h4 q (Nat.zero_le q) hq⟩
  · intro label h r hr
    exact (findFrom_eq_none_iff (fun q => labelMatch g q label) g.nrows 0).mp h r
      (Nat.zero_le r) (by omega)
  · intro r c h
    obtain ⟨h1, h2, h3, h4⟩ :=
      findFrom_eq_some_spec (fun c2 => !(isAbsent (g.cell r c2))) (g.ncols - 2) 2 c h
    refine ⟨?_, h1, by omega, by simpa using h3, ?_⟩
    · show (findFrom (fun c2 => !(isAbsent (g.cell r c2))) (1 + 1)
        (g.ncols - (1 + 1))).getD (1 + 1) = c
      norm_num
      rw [h]
      rfl
    · intro c2 hc1 hc2
      simpa using h4 c2 hc1 hc2
  · intro r hall
    show (findFrom (fun c2 => !(isAbsent (g.cell r c2))) (1 + 1)
      (g.ncols - (1 + 1))).getD (1 + 1) = 2
    norm_num
    rw [(findFrom_eq_none_iff (fun c2 => !(isAbsent (g.cell r c2))) (g.ncols - 2) 2).mpr ?_]
    · rfl
    · intro i h1 h2
      have hi : i < g.ncols := by omega
      simp [hall i h1 hi]
  · intro hnone
    cases hE : extract g now with
    | error e => exact ⟨e, rfl⟩
    | ok p =>
      obtain ⟨md, txs⟩ := p
      obtain ⟨hMeta, _⟩ := extract_ok_parts g now md txs hE
      obtain ⟨⟨hI, hH, _⟩, _⟩ := extractMetadata_ok_spec g now md hMeta
      rw [hnone] at hH
      exact Option.noConfusion hH
  · intro hnone
    cases hE : extract g now with
    | error e => exact ⟨e, rfl⟩
    | ok p =>
      obtain ⟨md, txs⟩ := p
      obtain ⟨hMeta, _⟩ := extract_ok_parts g now md txs hE
      obtain ⟨_, ⟨rI, hR, _⟩, _⟩ := extractMetadata_ok_spec g now md hMeta
      rw [hnone] at hR
      exact Option.noConfusion hR
  · intro hnone
    cases hE : extract g now with
    | error e => exact ⟨e, rfl⟩
    | ok p =>
      obtain ⟨md, txs⟩ := p
      obtain ⟨hMeta, _⟩ := extract_ok_parts g now md txs hE
      obtain ⟨_, _, ⟨aI, hA, _⟩, _⟩ := extractMetadata_ok_spec g now md hMeta
      rw [hnone] at hA
      exact Option.noConfusion hA
  · intro md txs hE
    obtain ⟨hMeta, _⟩ := extract_ok_parts g now md txs hE
    obtain ⟨hH, hR, hA, _⟩ := extractMetadata_ok_spec g now md hMeta
    exact ⟨hH, hR, hA⟩

/-- Witness for C5: on `gBase` the holder label is found first at row 0 and
the returned metadata resolves the holder value through the rightward
scan. -/
theorem claim5_metadata_labels_witness :
    (0 < gBase.nrows ∧ labelMatch gBase 0 "Sr(a)" = true ∧
      ∀ q, q < 0 → labelMatch gBase q "Sr(a)" = false) ∧
    (∃ hI, findLabelRow gBase "Sr(a)" = some hI ∧
      mdBase.account_holder = cellStr (gBase.cell hI (findValueColumn gBase hI 1))) :=
  ⟨(claim5_metadata_labels gBase now0).1 "Sr(a)" 0 (by rfl),
   ((claim5_metadata_labels gBase now0).2.2.2.2.2.2.2 mdBase [txBase] (by rfl)).1⟩

/-- C6: in the balance and totals blocks the first value (available balance
/ total debits) is read from column 1 of the row directly below the header
row, and the second value (accounting balance / total credits) is read from
that same row at the column where the secondary label (`Saldo Contable` /
`Total Abonos`) first appears in the header row, falling back to column 2
when the label is not found. -/
theorem claim6_balance_totals (g : Grid) (now : DateTime) :
    (∀ r header c, findHeaderColumn g r header = some c →
      c < g.ncols ∧
        (!(isAbsent (g.cell r c)) &&
          strStartsWith (strTrim (cellStr (g.cell r c))) header) = true ∧
        ∀ c2, c2 < c →
          (!(isAbsent (g.cell r c2)) &&
            strStartsWith (strTrim (cellStr (g.cell r c2))) header) = false) ∧
    (∀ r header, findHeaderColumn g r header = none ↔
      ∀ c, c < g.ncols →
        (!(isAbsent (g.cell r c)) &&
          strStartsWith (strTrim (cellStr (g.cell r c))) header) = false) ∧
    (∀ md txs, extract g now = .ok (md, txs) →
      (∃ bI, findLabelRow g "Saldo Disponible" = some bI ∧
        md.available_balance = parseAmount (g.cell (bI + 1) 1) ∧
        md.accounting_balance =
          parseAmount (g.cell (bI + 1) ((findHeaderColumn g bI "Saldo Contable").getD 2))) ∧
      (∃ tI, findLabelRow g "Total Cargos" = some tI ∧
        md.total_debits = parseAmount (g.cell (tI + 1) 1) ∧
        md.total_credits =
          parseAmount (g.cell (tI + 1) ((findHeaderColumn g tI "Total Abonos").getD 2)))) := by
  refine ⟨?_, ?_, ?_⟩
  · intro r header c h
    obtain ⟨h1, h2, h3, h4⟩ := findFrom_eq_some_spec _ g.ncols 0 c h
    exact ⟨by omega, h3, fun c2 hc2 => h4 c2 (Nat.zero_le c2) hc2⟩
  · intro r header
    constructor
    · intro h c hc
      exact (findFrom_eq_none_iff _ g.ncols 0).mp h c (Nat.zero_le c) (by omega)
    · intro h
      exact (findFrom_eq_none_iff _ g.ncols 0).mpr (fun i h1 h2 => h i (by omega))
  · intro md txs hE
    obtain ⟨hMeta, _⟩ := extract_ok_parts g now md txs hE
    obtain ⟨_, _, _, _, hBal, hTot, _⟩ := extractMetadata_ok_spec g now md hMeta
    exact ⟨hBal, hTot⟩

/-- Witness for C6: on `gBase` the balance block is found at header row 4,
the available balance is read from (5, 1) and the accounting balance from
(5, 2), the column of the `Saldo Contable` label. -/
theorem claim6_balance_totals_witness :
    ∃ bI, findLabelRow gBase "Saldo Disponible" = some bI ∧
      mdBase.available_balance = parseAmount (gBase.cell (bI + 1) 1) ∧
      mdBase.accounting_balance =
        parseAmount (gBase.cell (bI + 1)
          ((findHeaderColumn gBase bI "Saldo Contable").getD 2)) :=
  ((claim6_balance_totals gBase now0).2.2 mdBase [txBase] (by rfl)).1

/-- C8: the statement date of a successful extraction comes from the first
`DD/MM/YYYY`-shaped substring found scanning the columns of the first
`Movimientos` row left to right, parsed day/month/year; when no column of
that row contains such a pattern, extraction does not fail and the statement
date is the extraction-time clock reading (shown concretely on `gNoDate`,
which extracts successfully with `statement_date = now0`). -/
theorem claim8_statement_date (g : Grid) (now : DateTime) :
    (∀ md txs, extract g now = .ok (md, txs) →
      ∃ mI, findLabelRow g "Movimientos" = some mI ∧
        ((scanRowForDate g mI = none ∧ md.statement_date = now) ∨
         (∃ s, scanRowForDate g mI = some s ∧
            parseFullDate s = some md.statement_date))) ∧
    (∀ r s, scanRowForDate g r = some s →
      ∃ c, c < g.ncols ∧ isAbsent (g.cell r c) = false ∧
        (findDateSub (cellStr (g.cell r c)).data).map String.mk = some s ∧
        ∀ c2, c2 < c → isAbsent (g.cell r c2) = true ∨
          findDateSub (cellStr (g.cell r c2)).data = none) ∧
    (∀ r, scanRowForDate g r = none ↔
      ∀ c, c < g.ncols → isAbsent (g.cell r c) = true ∨
        findDateSub (cellStr (g.cell r c)).data = none) ∧
    extract gNoDate now0 = .ok ({ mdBase with statement_date := now0 }, [txBase]) := by
  refine ⟨?_, ?_, ?_, by rfl⟩
  · intro md txs hE
    obtain ⟨hMeta, _⟩ := extract_ok_parts g now md txs hE
    obtain ⟨_, _, _, _, _, _, hMov⟩ := extractMetadata_ok_spec g now md hMeta
    exact hMov
  · intro r s h
    obtain ⟨c, h1, h2, h3, h4⟩ := scanFrom_eq_some_spec _ g.ncols 0 s h
    refine ⟨c, by omega, ?_, ?_, ?_⟩
    · by_cases hab : isAbsent (g.cell r c) = true
      · rw [if_pos hab] at h3
        exact Option.noConfusion h3
      · exact Bool.not_eq_true _ ▸ hab
    · by_cases hab : isAbsent (g.cell r c) = true
      · rw [if_pos hab] at h3
        exact Option.noConfusion h3
      · rw [if_neg hab] at h3
        exact h3
    · intro c2 hc1
      have h5 := h4 c2 (Nat.zero_le c2) hc1
      by_cases hab : isAbsent (g.cell r c2) = true
      · exact Or.inl hab
      · rw [if_neg hab] at h5
        exact Or.inr (by simpa using h5)
  · intro r
    constructor
    · intro h c hc
      have h2 := (scanFrom_eq_none_iff _ g.ncols 0).mp h c (Nat.zero_le c) (by omega)
      by_cases hab : isAbsent (g.cell r c) = true
      · exact Or.inl hab
      · rw [if_neg hab] at h2
        exact Or.inr (by simpa using h2)
    · intro h
      refine (scanFrom_eq_none_iff _ g.ncols 0).mpr ?_
      intro i h1 h2
      rcases h i (by omega) with hab | hsub
      · rw [if_pos hab]
      · by_cases hab2 : isAbsent (g.cell r i) = true
        · rw [if_pos hab2]
        · rw [if_neg hab2, hsub]
          rfl

/-- Witness for C8: applied to `gBase`, whose `Movimientos` row carries the
pattern `15/03/2024`, the extracted statement date is its parse. -/
theorem claim8_statement_date_witness :
    ∃ mI, findLabelRow gBase "Movimientos" = some mI ∧
      ((scanRowForDate gBase mI = none ∧ mdBase.statement_date = now0) ∨
       (∃ s, scanRowForDate gBase mI = some s ∧
          parseFullDate s = some mdBase.statement_date)) :=
  (claim8_statement_date gBase now0).1 mdBase [txBase] (by rfl)

/-- C1 counterexample: the claim "a returned transaction never has both
debit and credit populated" is false.  On the concrete grid `gBoth`, whose
transaction row carries text in both the debit and the credit cell, the
extractor returns a transaction with both fields populated — the source
copies each cell independently and enforces no mutual exclusion. -/
theorem claim1_counterexample :
    ∃ md txs tx, extract gBoth now0 = .ok (md, txs) ∧ tx ∈ txs ∧
      tx.debit ≠ none ∧ tx.credit ≠ none :=
  ⟨mdBase, [txBoth], txBoth, by rfl, by simp, by simp [txBoth], by simp [txBoth]⟩

/-- C1 (amended): for every transaction returned by `extract`, balance is
always populated (with the parsed balance cell), and debit (respectively
credit) is populated exactly when the corresponding cell of the source row
is non-empty — so both may be populated at once, and a populated value may
be zero or negative; positivity and mutual exclusion are not enforced by the
extractor. -/
theorem claim1_amended (g : Grid) (now : DateTime) (md : BancoChileMetadata)
    (txs : List BancoChileTransaction) (hE : extract g now = .ok (md, txs)) :
    ∀ tx ∈ txs, ∃ hIdx, findLabelRow g "Fecha" = some hIdx ∧
      ∃ idx, hIdx < idx ∧ idx < g.nrows ∧
        (tx.debit =
          if isAbsent (g.cell idx (detectTransactionColumns g hIdx).debit) then none
          else some (parseAmount (g.cell idx (detectTransactionColumns g hIdx).debit))) ∧
        (tx.credit =
          if isAbsent (g.cell idx (detectTransactionColumns g hIdx).credit) then none
          else some (parseAmount (g.cell idx (detectTransactionColumns g hIdx).credit))) ∧
        tx.balance = parseAmount (g.cell idx (detectTransactionColumns g hIdx).balance) := by
  intro tx htx
  obtain ⟨hMeta, hTx⟩ := extract_ok_parts g now md txs hE
  obtain ⟨hIdx, hF, hLoop, hnc⟩ := extractTransactions_ok_parts g txs hTx
  obtain ⟨idx, hmem, d, hAbs, hDate, hTxEq⟩ :=
    txLoop_ok_mem g (detectTransactionColumns g hIdx) _ txs hLoop tx htx
  have hrange := List.mem_range'_1.mp hmem
  have hIdxLt : hIdx < g.nrows := by
    have := (findFrom_eq_some_spec (fun r => labelMatch g r "Fecha") g.nrows 0 hIdx hF).2.1
    omega
  subst hTxEq
  exact ⟨hIdx, hF, idx, by omega, by omega, rfl, rfl, rfl⟩

/-- Witness for C1 (amended): on `gBase` the single returned transaction's
debit, credit and balance are exactly the per-cell values of its source
row. -/
theorem claim1_amended_witness :
    ∃ hIdx, findLabelRow gBase "Fecha" = some hIdx ∧
      ∃ idx, hIdx < idx ∧ idx < gBase.nrows ∧
        (txBase.debit =
          if isAbsent (gBase.cell idx (detectTransactionColumns gBase hIdx).debit) then none
          else some (parseAmount (gBase.cell idx (detectTransactionColumns gBase hIdx).debit))) ∧
        (txBase.credit =
          if isAbsent (gBase.cell idx (detectTransactionColumns gBase hIdx).credit) then none
          else some (parseAmount (gBase.cell idx (detectTransactionColumns gBase hIdx).credit))) ∧
        txBase.balance = parseAmount (gBase.cell idx (detectTransactionColumns gBase hIdx).balance) :=
  claim1_amended gBase now0 mdBase [txBase] (by rfl) txBase (by simp)

/-- C10: in every accepted transaction row, a debit or credit cell that is
present but has no parseable digits (after separator stripping) yields a
populated amount of exactly zero, while an absent cell yields an unpopulated
(`none`) amount — so a populated-but-zero debit or credit reaches the
caller. -/
theorem claim10_zero_amounts (g : Grid) (now : DateTime) (md : BancoChileMetadata)
    (txs : List BancoChileTransaction) (tx : BancoChileTransaction)
    (hE : extract g now = .ok (md, txs)) (htx : tx ∈ txs) :
    ∃ hIdx idx, findLabelRow g "Fecha" = some hIdx ∧ hIdx < idx ∧ idx < g.nrows ∧
      (∀ s, g.cell idx (detectTransactionColumns g hIdx).debit = .text s →
        parseSignedDigits (cleanAmountStr s) = none → tx.debit = some 0) ∧
      (g.cell idx (detectTransactionColumns g hIdx).debit = .absent → tx.debit = none) ∧
      (∀ s, g.cell idx (detectTransactionColumns g hIdx).credit = .text s →
        parseSignedDigits (cleanAmountStr s) = none → tx.credit = some 0) ∧
      (g.cell idx (detectTransactionColumns g hIdx).credit = .absent → tx.credit = none) := by
  obtain ⟨hMeta, hTx⟩ := extract_ok_parts g now md txs hE
  obtain ⟨hIdx, hF, hLoop, hnc⟩ := extractTransactions_ok_parts g txs hTx
  obtain ⟨idx, hmem, d, hAbs, hDate, hTxEq⟩ :=
    txLoop_ok_mem g (detectTransactionColumns g hIdx) _ txs hLoop tx htx
  have hrange := List.mem_range'_1.mp hmem
  have hIdxLt : hIdx < g.nrows := by
    have := (findFrom_eq_some_spec (fun r => labelMatch g r "Fecha") g.nrows 0 hIdx hF).2.1
    omega
  subst hTxEq
  refine ⟨hIdx, idx, hF, by omega, by omega, ?_, ?_, ?_, ?_⟩
  · intro s hcell hparse
    simp only [rowToTx, hcell]
    simp [isAbsent, parseAmount, hparse]
  · intro hcell
    simp only [rowToTx, hcell]
    simp [isAbsent]
  · intro s hcell hparse
    simp only [rowToTx, hcell]
    simp [isAbsent, parseAmount, hparse]
  · intro hcell
    simp only [rowToTx, hcell]
    simp [isAbsent]

/-- Witness for C10: on `gDash`, whose transaction row holds the dash text
in the debit cell and nothing in the credit cell, the returned transaction
has `debit = some 0` and `credit = none`. -/
theorem claim10_zero_amounts_witness :
    (∃ hIdx idx, findLabelRow gDash "Fecha" = some hIdx ∧ hIdx < idx ∧ idx < gDash.nrows ∧
      (∀ s, gDash.cell idx (detectTransactionColumns gDash hIdx).debit = .text s →
        parseSignedDigits (cleanAmountStr s) = none → txDash.debit = some 0) ∧
      (gDash.cell idx (detectTransactionColumns gDash hIdx).debit = .absent →
        txDash.debit = none) ∧
      (∀ s, gDash.cell idx (detectTransactionColumns gDash hIdx).credit = .text s →
        parseSignedDigits (cleanAmountStr s) = none → txDash.credit = some 0) ∧
      (gDash.cell idx (detectTransactionColumns gDash hIdx).credit = .absent →
        txDash.credit = none)) ∧
    txDash.debit = some 0 ∧ txDash.credit = none :=
  ⟨claim10_zero_amounts gDash now0 mdBase [txDash] txDash (by rfl) (by simp),
   by rfl, by rfl⟩

/-- C9 counterexample: extraction is not a pure function of the input file
alone.  On `gNoDate` (a valid statement whose `Movimientos` row has no date
pattern) the result embeds the extraction-time clock reading, so two calls
at different instants differ. -/
theorem claim9_counterexample : extract gNoDate now0 ≠ extract gNoDate now1 := by
  intro h
  have h1 : extract gNoDate now0 = .ok ({ mdBase with statement_date := now0 }, [txBase]) := by
    rfl
  have h2 : extract gNoDate now1 = .ok ({ mdBase with statement_date := now1 }, [txBase]) := by
    rfl
  rw [h1, h2] at h
  have h3 := Except.ok.inj h
  injection h3 with h4 h5
  have h6 : now0 = now1 := congrArg BancoChileMetadata.statement_date h4
  exact absurd h6 (by decide)

/-- C9 (amended): extraction is deterministic — independent of the
extraction-time clock — for every file whose `Movimientos` row contains a
`DD/MM/YYYY` pattern; only when no pattern is found does the result depend
on the clock (through the `datetime.now()` statement-date fallback). -/
theorem claim9_amended (g : Grid) (t1 t2 : DateTime) (m : Nat) (s : String)
    (hm : findLabelRow g "Movimientos" = some m)
    (hs : scanRowForDate g m = some s) :
    extract g t1 = extract g t2 := by
  have hsd : stmtDateStage g t1 = stmtDateStage g t2 := by
    unfold stmtDateStage
    rw [hm]
    show stmtDateOf g m t1 = stmtDateOf g m t2
    unfold stmtDateOf
    rw [hs]
  have hmeta : extractMetadata g t1 = extractMetadata g t2 := by
    unfold extractMetadata
    simp only [hsd]
  unfold extract
  rw [hmeta]

/-- Witness for C9 (amended): `gBase` carries the pattern `15/03/2024`, so
extracting at two different clock readings gives identical results. -/
theorem claim9_amended_witness : extract gBase now0 = extract gBase now1 :=
  claim9_amended gBase now0 now1 8 "15/03/2024" (by rfl) (by rfl)

end BancoChile
